import Mathlib

/-!
Verification of the audio-visualization pipeline in
src/components/AudioVisualizer.tsx.

The per-frame computations (clamp, RMS level extraction, spectrum bar
mapping, fade multiplier, color mapping) are embedded as pure functions
over exact arithmetic (rationals, and reals where a square root is
taken).  The session lifecycle (cleanup / startMic / startTabCapture /
stop and the per-frame draw step) is embedded as explicit state passing
over a record mirroring the component's refs and state hooks.
-/

/-- Source: `clamp(n, min, max) = Math.max(min, Math.min(max, n))`
(AudioVisualizer.tsx lines 8-10), generic over any linearly ordered
type since the source applies it to several numeric quantities. -/
def clamp {α : Type} [LinearOrder α] (n mn mx : α) : α :=
  max mn (min mx n)

/-- The hue/saturation/lightness components of the color string
produced by `levelToColor`; the textual `hsl(...)` formatting carries
no further information. -/
structure HSL where
  hue : ℚ
  saturation : ℚ
  lightness : ℚ
deriving DecidableEq

/-- Source: `levelToColor` (AudioVisualizer.tsx lines 19-26):
hue = 240*(1-level), saturation = 80 + level*20, lightness = 50 + level*10. -/
def levelToColor (level : ℚ) : HSL :=
  { hue := 240 * (1 - level)
    saturation := 80 + level * 20
    lightness := 50 + level * 10 }

/-- Source: `fadeOutDurationRef.current = 1000` (line 43), the 1-second
fade-out duration in milliseconds. -/
def fadeOutDuration : ℚ := 1000

/-- The fade multiplier computed in `draw` (lines 228-230):
`progress = min(elapsed / duration, 1.0); multiplier = 1 - progress`. -/
def fadeMul (elapsedMs : ℚ) : ℚ :=
  1 - min (elapsedMs / fadeOutDuration) 1

/-- One spectrum bar level, from the per-bar body of the loop in `draw`
(AudioVisualizer.tsx lines 290-306):
`t = i/(bars-1)`, `curved = t*t`, `bin = floor(curved*(freqBins-1))`,
`win = max(1, floor(freqBins/(bars*3)))`, then the mean of
`freqData[clamp(bin+j, 0, freqBins-1)]` over `j` in `[-win, win]`,
divided by 255, times gain and fade, clamped to [0,1].
`F` is the contents of the `freqData` byte array. -/
def barLevel (F : ℕ → ℕ) (freqBins bars : ℕ) (gainBoost fadeMultiplier : ℚ)
    (i : ℕ) : ℚ :=
  let t : ℚ := (i : ℚ) / ((bars : ℚ) - 1)
  let curved : ℚ := t * t
  let bin : ℤ := ⌊curved * ((freqBins : ℚ) - 1)⌋
  let win : ℕ := max 1 (freqBins / (bars * 3))
  let s : ℕ :=
    Finset.sum (Finset.Icc (-(win : ℤ)) (win : ℤ))
      (fun j => F (clamp (bin + j) 0 ((freqBins : ℤ) - 1)).toNat)
  let count : ℕ := 2 * win + 1
  let v : ℚ := (s : ℚ) / ((count : ℕ) : ℚ) / 255
  clamp (v * gainBoost * fadeMultiplier) 0 1

/-- The spectrum-mapper reference computation transcribed from the
spec's own words (spec.md section 4.2, steps 1-6): `t = i/(K-1)` with
`t = 0` when `K = 1`, `curved = t^2`,
`centerBin = floor(curved*(B-1))`,
`halfWindow = max(1, floor(B/(K*3)))`, the average of
`F[clamp(centerBin+j, 0, B-1)]` over `j` in `[-halfWindow, halfWindow]`
inclusive, normalized by 255, multiplied by gain and fade multiplier,
clamped to [0,1].  Compared against `barLevel` for the refinement
claim. -/
def specBarLevel (F : ℕ → ℕ) (B K : ℕ) (g m : ℚ) (i : ℕ) : ℚ :=
  let t : ℚ := if K = 1 then 0 else (i : ℚ) / ((K : ℚ) - 1)
  let curved : ℚ := t ^ 2
  let centerBin : ℤ := ⌊curved * ((B : ℚ) - 1)⌋
  let halfWindow : ℕ := max 1 ⌊(B : ℚ) / ((K : ℚ) * 3)⌋₊
  let avg : ℚ :=
    (Finset.sum (Finset.Icc (-(halfWindow : ℤ)) (halfWindow : ℤ))
      (fun j => ((F (clamp (centerBin + j) 0 ((B : ℤ) - 1)).toNat : ℕ) : ℚ)))
      / ((2 * halfWindow + 1 : ℕ) : ℚ)
  clamp (avg / 255 * g * m) 0 1

/-- The full list of bar levels drawn by one frame: the source clamps
the caller's bar count via `const bars = clamp(barCount, 8, 256)`
(line 286) and runs the per-bar loop for `i` in `[0, bars-1]`. -/
def spectrumLevels (F : ℕ → ℕ) (freqBins barCount : ℕ)
    (gainBoost fadeMultiplier : ℚ) : List ℚ :=
  let bars : ℕ := clamp barCount 8 256
  (List.range bars).map (barLevel F freqBins bars gainBoost fadeMultiplier)

/-- Source: `rmsTimeDomain` (AudioVisualizer.tsx lines 12-17):
the square root of the mean of the squared samples. -/
noncomputable def rmsTimeDomain (buf : List ℝ) : ℝ :=
  Real.sqrt ((buf.map (fun x => x * x)).sum / (buf.length : ℝ))

/-- The VU display level computed in `draw` (lines 261-266):
`rms = clamp(rmsTimeDomain(timeData) * gainBoost * fadeMultiplier, 0, 1.25)`
then `vuLevel = clamp(rms / 1.0, 0, 1)`. -/
noncomputable def vuLevel (buf : List ℝ) (gainBoost fadeMultiplier : ℝ) : ℝ :=
  let rms : ℝ := clamp (rmsTimeDomain buf * gainBoost * fadeMultiplier) 0 1.25
  clamp (rms / 1.0) 0 1

/-- The component's `mode` state: `"idle" | "mic" | "tab"` (line 6). -/
inductive Mode where
  | idle
  | mic
  | tab
deriving DecidableEq

/-- The component's session-lifecycle state: the React refs and state
hooks of `AudioVisualizer` (lines 37-48).  The media stream is tracked
by id: `currentStream` is `streamRef`, and `liveStreams` is the
environment's view of which acquired streams still have unstopped
tracks, so that track leaks are observable.  `rafActive` records
whether a `requestAnimationFrame` callback is scheduled
(`rafRef.current !== null`).  `nextStreamId` numbers freshly acquired
streams. -/
structure SessionState where
  mode : Mode
  isRunning : Bool
  isFadingOut : Bool
  fadeOutStart : Option ℚ
  rafActive : Bool
  currentStream : Option ℕ
  liveStreams : List ℕ
  analyserAttached : Bool
  sourceAttached : Bool
  nextStreamId : ℕ

/-- Source: `cleanup` (AudioVisualizer.tsx lines 71-96): clears running
and fade flags, cancels the scheduled animation frame, disconnects and
nulls the analyser and source nodes, stops the current stream's tracks
and nulls the stream ref, and sets mode to idle. -/
def cleanup (s : SessionState) : SessionState :=
  { s with
    isRunning := false
    isFadingOut := false
    fadeOutStart := none
    rafActive := false
    analyserAttached := false
    sourceAttached := false
    liveStreams :=
      match s.currentStream with
      | some id => s.liveStreams.erase id
      | none => s.liveStreams
    currentStream := none
    mode := Mode.idle }

/-- The successful acquisition tail shared by `startMic` (lines 103-125)
and `startTabCapture` (lines 137-162): a fresh stream is acquired and
stored, analyser and source nodes are created and connected, mode and
running state are set, and `loopDraw` schedules the first frame. -/
def acquireSession (m : Mode) (s : SessionState) : SessionState :=
  { s with
    currentStream := some s.nextStreamId
    liveStreams := s.nextStreamId :: s.liveStreams
    nextStreamId := s.nextStreamId + 1
    analyserAttached := true
    sourceAttached := true
    mode := m
    isRunning := true
    rafActive := true }

/-- Source: `startMic` (lines 98-130): unconditionally `cleanup()`
first, then acquire the microphone session; on failure (`ok = false`,
e.g. permission denied before any resource was stored) the catch
handler runs `cleanup()` again. -/
def startMic (ok : Bool) (s : SessionState) : SessionState :=
  if ok then acquireSession Mode.mic (cleanup s) else cleanup (cleanup s)

/-- Source: `startTabCapture` (lines 132-170): same shape as
`startMic` with the display-capture stream and tab mode. -/
def startTabCapture (ok : Bool) (s : SessionState) : SessionState :=
  if ok then acquireSession Mode.tab (cleanup s) else cleanup (cleanup s)

/-- Source: `stop` (lines 172-197).  When running and not already
fading: disconnect and null the nodes, stop the stream's tracks and
null the stream ref, clear `isRunning`, set `isFadingOut` and record
the fade start time (the animation frame stays scheduled).  Otherwise
(already fading or not running): `cleanup()` immediately. -/
def stop (s : SessionState) (now : ℚ) : SessionState :=
  if s.isRunning && !s.isFadingOut then
    { s with
      analyserAttached := false
      sourceAttached := false
      liveStreams :=
        match s.currentStream with
        | some id => s.liveStreams.erase id
        | none => s.liveStreams
      currentStream := none
      isRunning := false
      isFadingOut := true
      fadeOutStart := some now }
  else cleanup s

/-- One invocation of the `draw` callback (lines 224-331), restricted
to its state effects: when fading with a recorded start time it
computes `progress = min(elapsed/duration, 1)` and the multiplier
`1 - progress`; if `progress >= 1.0` it runs `cleanup()` and returns
without scheduling another frame, otherwise it draws and ends with
`rafRef.current = requestAnimationFrame(draw)`.  Returns the resulting
state together with the fade multiplier used for this frame. -/
def drawStep (s : SessionState) (now : ℚ) : SessionState × ℚ :=
  match s.isFadingOut, s.fadeOutStart with
  | true, some start =>
    let progress : ℚ := min ((now - start) / fadeOutDuration) 1
    let m : ℚ := 1 - progress
    if 1 ≤ progress then (cleanup s, m)
    else ({ s with rafActive := true }, m)
  | _, _ => ({ s with rafActive := true }, 1)

/-- Well-formedness of the stream bookkeeping: the environment's live
streams are exactly the one held in `streamRef` (at most one session's
tracks are live), and every live stream id was previously issued. -/
def goodState (s : SessionState) : Prop :=
  s.liveStreams = s.currentStream.toList ∧
  ∀ id ∈ s.liveStreams, id < s.nextStreamId

/-- All capture resources and fade state of a session are released:
no stream held, no live tracks, nodes disconnected and nulled, fade
cleared. -/
def resourcesReleased (s : SessionState) : Prop :=
  s.currentStream = none ∧ s.liveStreams = [] ∧
  s.analyserAttached = false ∧ s.sourceAttached = false ∧
  s.isFadingOut = false ∧ s.fadeOutStart = none

/-- A concrete state as left by `stop` while running: fading out,
audio resources already released, animation frame still scheduled. -/
def fadingState : SessionState :=
  { mode := Mode.mic
    isRunning := false
    isFadingOut := true
    fadeOutStart := some 0
    rafActive := true
    currentStream := none
    liveStreams := []
    analyserAttached := false
    sourceAttached := false
    nextStreamId := 1 }

/-- A concrete state with a live microphone session (stream id 0). -/
def priorSession : SessionState :=
  { mode := Mode.mic
    isRunning := true
    isFadingOut := false
    fadeOutStart := none
    rafActive := true
    currentStream := some 0
    liveStreams := [0]
    analyserAttached := true
    sourceAttached := true
    nextStreamId := 1 }

theorem clamp_mem_Icc {α : Type} [LinearOrder α] (n mn mx : α) (h : mn ≤ mx) :
    mn ≤ clamp n mn mx ∧ clamp n mn mx ≤ mx := by
  refine ⟨le_max_left _ _, max_le h (min_le_left _ _)⟩

theorem clamp_eq_self {α : Type} [LinearOrder α] {n mn mx : α}
    (h1 : mn ≤ n) (h2 : n ≤ mx) : clamp n mn mx = n := by
  unfold clamp
  rw [min_eq_right h2, max_eq_right h1]

theorem clamp_idem {α : Type} [LinearOrder α] (n : α) {mn mx : α}
    (h : mn ≤ mx) : clamp (clamp n mn mx) mn mx = clamp n mn mx := by
  obtain ⟨h1, h2⟩ := clamp_mem_Icc n mn mx h
  exact clamp_eq_self h1 h2

theorem barLevel_bounds (F : ℕ → ℕ) (freqBins bars : ℕ) (g m : ℚ) (i : ℕ) :
    0 ≤ barLevel F freqBins bars g m i ∧ barLevel F freqBins bars g m i ≤ 1 := by
  simp only [barLevel]
  exact clamp_mem_Icc _ 0 1 (by norm_num)

theorem card_Icc_symm (w : ℕ) :
    (Finset.Icc (-(w : ℤ)) (w : ℤ)).card = 2 * w + 1 := by
  rw [Int.card_Icc]
  omega

theorem barLevel_const (c : ℕ) (freqBins bars : ℕ) (g m : ℚ) (i : ℕ) :
    barLevel (fun _ => c) freqBins bars g m i =
      clamp ((c : ℚ) / 255 * g * m) 0 1 := by
  simp only [barLevel, Finset.sum_const, smul_eq_mul, card_Icc_symm]
  have hpos : (0 : ℚ) < ((2 * max 1 (freqBins / (bars * 3)) + 1 : ℕ) : ℚ) := by
    positivity
  congr 1
  push_cast
  field_simp

/-- C5: the Color Mapper is the pure function with hue = 240*(1-L),
saturation = (80 + 20*L) percent, lightness = (50 + 10*L) percent;
hence hue is 240 at L = 0, 0 at L = 1, and monotonically
non-increasing in the level. -/
theorem colorMapper_spec (L L1 L2 : ℚ) (h : L1 ≤ L2) :
    (levelToColor L).hue = 240 * (1 - L) ∧
    (levelToColor L).saturation = 80 + 20 * L ∧
    (levelToColor L).lightness = 50 + 10 * L ∧
    (levelToColor 0).hue = 240 ∧
    (levelToColor 1).hue = 0 ∧
    (levelToColor L2).hue ≤ (levelToColor L1).hue := by
  refine ⟨rfl, by simp [levelToColor]; ring, by simp [levelToColor]; ring,
    by norm_num [levelToColor], by norm_num [levelToColor], ?_⟩
  simp only [levelToColor]
  linarith

theorem colorMapper_spec_witness :
    ((1 : ℚ) / 4 ≤ 1 / 2) ∧
    (levelToColor (1 / 4)).hue = 240 * (1 - 1 / 4) ∧
    (levelToColor (1 / 4)).saturation = 80 + 20 * (1 / 4) ∧
    (levelToColor (1 / 4)).lightness = 50 + 10 * (1 / 4) ∧
    (levelToColor 0).hue = 240 ∧
    (levelToColor 1).hue = 0 ∧
    (levelToColor (1 / 2)).hue ≤ (levelToColor (1 / 4)).hue := by
  have h := colorMapper_spec (1 / 4) (1 / 4) (1 / 2) (by norm_num)
  exact ⟨by norm_num, h.1, h.2.1, h.2.2.1, h.2.2.2.1, h.2.2.2.2.1, h.2.2.2.2.2⟩

/-- C4: for every bar count K in [8,256] the Spectrum Mapper produces
exactly K levels, each in [0,1]; arbitrary caller input is first
clamped into [8,256], and that many levels are produced. -/
theorem spectrum_count_and_bounds (F : ℕ → ℕ) (B K : ℕ) (g m : ℚ)
    (h8 : 8 ≤ K) (h256 : K ≤ 256) :
    (spectrumLevels F B K g m).length = K ∧
    (∀ K2 : ℕ, (spectrumLevels F B K2 g m).length = clamp K2 8 256) ∧
    ∀ L ∈ spectrumLevels F B K g m, 0 ≤ L ∧ L ≤ 1 := by
  refine ⟨?_, ?_, ?_⟩
  · simp [spectrumLevels, clamp_eq_self h8 h256]
  · intro K2
    simp [spectrumLevels]
  · intro L hL
    simp only [spectrumLevels, List.mem_map, List.mem_range] at hL
    obtain ⟨i, _, rfl⟩ := hL
    exact barLevel_bounds F B (clamp K 8 256) g m i

theorem spectrum_count_and_bounds_witness :
    (8 ≤ 16 ∧ 16 ≤ 256) ∧
    (spectrumLevels (fun _ => 0) 1024 16 1 1).length = 16 ∧
    (∀ K2 : ℕ, (spectrumLevels (fun _ => 0) 1024 K2 1 1).length = clamp K2 8 256) ∧
    ∀ L ∈ spectrumLevels (fun _ => 0) 1024 16 1 1, 0 ≤ L ∧ L ≤ 1 := by
  have h := spectrum_count_and_bounds (fun _ => 0) 1024 16 1 1
    (by decide) (by decide)
  exact ⟨⟨by decide, by decide⟩, h.1, h.2.1, h.2.2⟩

/-- C9: a constant frequency input yields the constant's normalized
value on every bar (before the final clamp keeps it in range): the
all-zero input yields all levels 0 for any bar count and any gain and
fade factors, and the all-255 input of length 1024 with barCount 16
yields sixteen levels all equal to 1 pre-gain (gain and fade 1). -/
theorem spectrum_constant_inputs (B K : ℕ) (g m : ℚ) :
    (∀ L ∈ spectrumLevels (fun _ => 0) B K g m, L = 0) ∧
    spectrumLevels (fun _ => 255) 1024 16 1 1 = List.replicate 16 1 := by
  constructor
  · intro L hL
    simp only [spectrumLevels, List.mem_map, List.mem_range] at hL
    obtain ⟨i, _, rfl⟩ := hL
    rw [barLevel_const]
    norm_num [clamp]
  · rw [List.eq_replicate_iff]
    constructor
    · simp only [spectrumLevels, List.length_map, List.length_range]
      decide
    · intro L hL
      simp only [spectrumLevels, List.mem_map, List.mem_range] at hL
      obtain ⟨i, _, rfl⟩ := hL
      rw [barLevel_const]
      norm_num [clamp]

/-- C10: with the bar count clamped to at least 8 and at least one
frequency bin, the per-bar computation is safe: the divisor bars-1 is
nonzero, every index used to read the frequency array is clamped into
[0, B-1] (so the converted array index is in range), and the averaging
count 2*halfWindow+1 is at least 3, in particular nonzero. -/
theorem barLevel_safety (B K : ℕ) (hB : 1 ≤ B) :
    (((clamp K 8 256 : ℕ) : ℚ) - 1 ≠ 0) ∧
    (∀ z : ℤ, 0 ≤ clamp z 0 ((B : ℤ) - 1) ∧
      clamp z 0 ((B : ℤ) - 1) ≤ (B : ℤ) - 1 ∧
      (clamp z 0 ((B : ℤ) - 1)).toNat < B) ∧
    3 ≤ 2 * max 1 (B / (clamp K 8 256 * 3)) + 1 ∧
    2 * max 1 (B / (clamp K 8 256 * 3)) + 1 ≠ 0 := by
  refine ⟨?_, ?_, ?_, ?_⟩
  · have h8 : 8 ≤ clamp K 8 256 := le_max_left _ _
    have : (8 : ℚ) ≤ ((clamp K 8 256 : ℕ) : ℚ) := by exact_mod_cast h8
    intro hzero
    have : ((clamp K 8 256 : ℕ) : ℚ) = 1 := by linarith
    linarith
  · intro z
    have hlow : (0 : ℤ) ≤ clamp z 0 ((B : ℤ) - 1) := le_max_left _ _
    have hhigh : clamp z 0 ((B : ℤ) - 1) ≤ (B : ℤ) - 1 :=
      max_le (by omega) (min_le_left _ _)
    exact ⟨hlow, hhigh, by omega⟩
  · have := Nat.le_max_left 1 (B / (clamp K 8 256 * 3))
    omega
  · have := Nat.le_max_left 1 (B / (clamp K 8 256 * 3))
    omega

theorem barLevel_safety_witness :
    1 ≤ 1024 ∧
    ((((clamp 64 8 256 : ℕ) : ℚ) - 1 ≠ 0) ∧
    (∀ z : ℤ, 0 ≤ clamp z 0 ((1024 : ℤ) - 1) ∧
      clamp z 0 ((1024 : ℤ) - 1) ≤ (1024 : ℤ) - 1 ∧
      (clamp z 0 ((1024 : ℤ) - 1)).toNat < 1024) ∧
    3 ≤ 2 * max 1 (1024 / (clamp 64 8 256 * 3)) + 1 ∧
    2 * max 1 (1024 / (clamp 64 8 256 * 3)) + 1 ≠ 0) :=
  ⟨by decide, barLevel_safety 1024 64 (by decide)⟩

/-- C2: the Level Extractor returns the root of the mean of the squared
samples, equals exactly 1/2 on the sample sequence
[0.5, -0.5, 0.5, -0.5], and the VU display level (while running, fade
multiplier 1) is the RMS times gainBoost clamped to [0, 1.25] and then
clamped to [0, 1]. -/
theorem rms_and_vu_spec (buf : List ℝ) (g : ℝ) (h : 0 < buf.length) :
    rmsTimeDomain buf =
      Real.sqrt ((1 / (buf.length : ℝ)) * (buf.map (fun x => x * x)).sum) ∧
    rmsTimeDomain [0.5, -0.5, 0.5, -0.5] = 0.5 ∧
    vuLevel buf g 1 = clamp (clamp (rmsTimeDomain buf * g) 0 1.25) 0 1 := by
  refine ⟨?_, ?_, ?_⟩
  · unfold rmsTimeDomain
    congr 1
    ring
  · unfold rmsTimeDomain
    have hval :
        (([(0.5 : ℝ), -0.5, 0.5, -0.5].map (fun x => x * x)).sum /
          (([(0.5 : ℝ), -0.5, 0.5, -0.5].length : ℕ) : ℝ)) = (0.5 : ℝ) ^ 2 := by
      norm_num
    rw [hval, Real.sqrt_sq (by norm_num : (0 : ℝ) ≤ 0.5)]
  · simp only [vuLevel, mul_one]
    norm_num

theorem rms_and_vu_spec_witness :
    0 < ([0.5, -0.5, 0.5, -0.5] : List ℝ).length ∧
    (rmsTimeDomain [0.5, -0.5, 0.5, -0.5] =
        Real.sqrt ((1 / (([0.5, -0.5, 0.5, -0.5] : List ℝ).length : ℝ)) *
          (([0.5, -0.5, 0.5, -0.5] : List ℝ).map (fun x => x * x)).sum) ∧
      rmsTimeDomain [0.5, -0.5, 0.5, -0.5] = 0.5 ∧
      vuLevel [0.5, -0.5, 0.5, -0.5] 2 1 =
        clamp (clamp (rmsTimeDomain [0.5, -0.5, 0.5, -0.5] * 2) 0 1.25) 0 1) :=
  ⟨by norm_num, rms_and_vu_spec [0.5, -0.5, 0.5, -0.5] 2 (by norm_num)⟩

/-- C3: while fading out the multiplier is 1 - min(elapsed/1000, 1):
1 at elapsed 0, 0 for elapsed at least 1000 ms, strictly decreasing in
between; and once progress reaches 1 the draw step runs the cleanup
(animation scheduling canceled, mode idle) and schedules no further
frame. -/
theorem fade_multiplier_and_teardown (s : SessionState) (start e e1 e2 : ℚ)
    (hf : s.isFadingOut = true) (hst : s.fadeOutStart = some start)
    (he : 1000 ≤ e) (h1 : 0 ≤ e1) (h12 : e1 < e2) (h2 : e2 ≤ 1000) :
    fadeMul 0 = 1 ∧ fadeMul e = 0 ∧ fadeMul e2 < fadeMul e1 ∧
    (∀ now : ℚ, now - start < 1000 →
      drawStep s now = ({ s with rafActive := true }, fadeMul (now - start))) ∧
    (∀ now : ℚ, 1000 ≤ now - start →
      drawStep s now = (cleanup s, fadeMul (now - start)) ∧
      (cleanup s).rafActive = false ∧ (cleanup s).mode = Mode.idle ∧
      (cleanup s).isRunning = false) := by
  refine ⟨?_, ?_, ?_, ?_, ?_⟩
  · norm_num [fadeMul, fadeOutDuration]
  · have h1000 : (1 : ℚ) ≤ e / 1000 := by
      rw [le_div_iff (by norm_num : (0 : ℚ) < 1000)]
      linarith
    simp only [fadeMul, fadeOutDuration]
    rw [min_eq_right h1000]
    ring
  · have hb1 : e1 / 1000 ≤ 1 := by
      rw [div_le_one (by norm_num : (0 : ℚ) < 1000)]
      linarith
    have hb2 : e2 / 1000 ≤ 1 := by
      rw [div_le_one (by norm_num : (0 : ℚ) < 1000)]
      linarith
    simp only [fadeMul, fadeOutDuration]
    rw [min_eq_left hb1, min_eq_left hb2]
    linarith
  · intro now hnow
    have hlt : (now - start) / 1000 < 1 := by
      rw [div_lt_one (by norm_num : (0 : ℚ) < 1000)]
      linarith
    simp only [drawStep, hf, hst, fadeOutDuration]
    rw [if_neg (by simp only [le_min_iff]; push_neg; intro hc; linarith)]
    simp [fadeMul, fadeOutDuration]
  · intro now hnow
    have hge : (1 : ℚ) ≤ (now - start) / 1000 := by
      rw [le_div_iff (by norm_num : (0 : ℚ) < 1000)]
      linarith
    simp only [drawStep, hf, hst, fadeOutDuration]
    rw [if_pos (le_min hge le_rfl)]
    exact ⟨by simp [fadeMul, fadeOutDuration], rfl, rfl, rfl⟩

theorem fade_multiplier_and_teardown_witness :
    (fadingState.isFadingOut = true ∧ fadingState.fadeOutStart = some 0 ∧
      (1000 : ℚ) ≤ 1000 ∧ (0 : ℚ) ≤ 0 ∧ (0 : ℚ) < 500 ∧ (500 : ℚ) ≤ 1000) ∧
    (fadeMul 0 = 1 ∧ fadeMul 1000 = 0 ∧ fadeMul 500 < fadeMul 0 ∧
    (∀ now : ℚ, now - 0 < 1000 →
      drawStep fadingState now =
        ({ fadingState with rafActive := true }, fadeMul (now - 0))) ∧
    (∀ now : ℚ, 1000 ≤ now - 0 →
      drawStep fadingState now = (cleanup fadingState, fadeMul (now - 0)) ∧
      (cleanup fadingState).rafActive = false ∧
      (cleanup fadingState).mode = Mode.idle ∧
      (cleanup fadingState).isRunning = false)) :=
  ⟨⟨rfl, rfl, by norm_num, by norm_num, by norm_num, by norm_num⟩,
    fade_multiplier_and_teardown fadingState 0 1000 0 500 rfl rfl
      (by norm_num) (by norm_num) (by norm_num) (by norm_num)⟩

theorem cleanup_liveStreams (s : SessionState) (hs : goodState s) :
    (cleanup s).liveStreams = [] := by
  obtain ⟨h1, _⟩ := hs
  simp only [cleanup]
  cases hcur : s.currentStream with
  | none => rw [hcur] at h1; simpa [h1]
  | some id =>
    rw [hcur] at h1
    simp [h1, List.erase_cons_head]

theorem goodState_cleanup (s : SessionState) (hs : goodState s) :
    goodState (cleanup s) := by
  refine ⟨?_, ?_⟩
  · rw [cleanup_liveStreams s hs]
    rfl
  · rw [cleanup_liveStreams s hs]
    intro id h
    cases h

/-- C6: starting a new capture session (microphone or tab) first fully
releases the prior session's resources — tracks stopped, nodes
disconnected and nulled, fade state cleared — before acquiring new
ones: the intermediate `cleanup` state holds no resources, the result
is again well formed with at most one live stream, and the prior
session's stream is no longer live afterwards. -/
theorem start_releases_prior_session (s : SessionState) (ok : Bool)
    (hs : goodState s) :
    resourcesReleased (cleanup s) ∧
    goodState (startMic ok s) ∧ goodState (startTabCapture ok s) ∧
    (startMic ok s).liveStreams.length ≤ 1 ∧
    (startTabCapture ok s).liveStreams.length ≤ 1 ∧
    ∀ id : ℕ, s.currentStream = some id →
      id ∉ (startMic ok s).liveStreams ∧
      id ∉ (startTabCapture ok s).liveStreams := by
  have hclean := cleanup_liveStreams s hs
  have hgood := goodState_cleanup s hs
  have hid : ∀ id : ℕ, s.currentStream = some id → id < s.nextStreamId := by
    intro id hcur
    obtain ⟨h1, h2⟩ := hs
    exact h2 id (by rw [h1, hcur]; exact List.mem_singleton.mpr rfl)
  refine ⟨⟨rfl, hclean, rfl, rfl, rfl, rfl⟩, ?_, ?_, ?_, ?_, ?_⟩
  · cases ok with
    | true =>
      refine ⟨?_, ?_⟩
      · simp [startMic, acquireSession, hclean]
      · simp only [startMic, acquireSession, if_true, hclean]
        intro id h
        simp only [List.mem_singleton] at h
        simp [h, cleanup]
    | false =>
      have := goodState_cleanup (cleanup s) hgood
      simpa [startMic] using this
  · cases ok with
    | true =>
      refine ⟨?_, ?_⟩
      · simp [startTabCapture, acquireSession, hclean]
      · simp only [startTabCapture, acquireSession, if_true, hclean]
        intro id h
        simp only [List.mem_singleton] at h
        simp [h, cleanup]
    | false =>
      have := goodState_cleanup (cleanup s) hgood
      simpa [startTabCapture] using this
  · cases ok with
    | true => simp [startMic, acquireSession, hclean]
    | false => simp [startMic, cleanup_liveStreams _ hgood]
  · cases ok with
    | true => simp [startTabCapture, acquireSession, hclean]
    | false => simp [startTabCapture, cleanup_liveStreams _ hgood]
  · intro id hcur
    have hlt := hid id hcur
    cases ok with
    | true =>
      constructor
      · simp only [startMic, acquireSession, if_true, hclean]
        simp only [List.mem_singleton, cleanup]
        omega
      · simp only [startTabCapture, acquireSession, if_true, hclean]
        simp only [List.mem_singleton, cleanup]
        omega
    | false =>
      constructor
      · simp [startMic, cleanup_liveStreams _ hgood]
      · simp [startTabCapture, cleanup_liveStreams _ hgood]

theorem start_releases_prior_session_witness :
    goodState priorSession ∧
    (resourcesReleased (cleanup priorSession) ∧
    goodState (startMic true priorSession) ∧
    goodState (startTabCapture true priorSession) ∧
    (startMic true priorSession).liveStreams.length ≤ 1 ∧
    (startTabCapture true priorSession).liveStreams.length ≤ 1 ∧
    ∀ id : ℕ, priorSession.currentStream = some id →
      id ∉ (startMic true priorSession).liveStreams ∧
      id ∉ (startTabCapture true priorSession).liveStreams) :=
  ⟨by constructor <;> decide,
    start_releases_prior_session priorSession true (by constructor <;> decide)⟩

/-- C8 counterexample: from a FadingOut state (as left by `stop` while
running), a subsequent stop request does terminate the fade early: it
falls into the else branch of `stop` and runs `cleanup()` immediately,
clearing the fade flag, canceling the scheduled frame, and returning
to Idle — refuting the claim that only a fresh start request (or fade
completion) leaves the FadingOut state. -/
theorem stop_during_fade_cancels_counterexample :
    fadingState.isFadingOut = true ∧
    (stop fadingState 500).isFadingOut = false ∧
    (stop fadingState 500).mode = Mode.idle ∧
    (stop fadingState 500).rafActive = false ∧
    (stop fadingState 500).fadeOutStart = none :=
  ⟨rfl, rfl, rfl, rfl, rfl⟩

/-- C8 amended: once a fade-out has begun, a fresh start request
cancels it, and a subsequent stop request also terminates it early —
`stop` in the FadingOut state performs immediate `cleanup()`, clearing
the fade and returning to Idle; only fade completion otherwise leaves
the state. -/
theorem stop_during_fade_amended (s : SessionState) (now : ℚ)
    (hf : s.isFadingOut = true) :
    stop s now = cleanup s ∧ (stop s now).isFadingOut = false ∧
    (stop s now).mode = Mode.idle ∧ (stop s now).rafActive = false := by
  have hcond : (s.isRunning && !s.isFadingOut) = false := by
    rw [hf]
    simp
  have heq : stop s now = cleanup s := by
    simp only [stop, hcond, Bool.false_eq_true, if_false]
  exact ⟨heq, by rw [heq]; rfl, by rw [heq]; rfl, by rw [heq]; rfl⟩

theorem stop_during_fade_amended_witness :
    fadingState.isFadingOut = true ∧
    (stop fadingState 500 = cleanup fadingState ∧
      (stop fadingState 500).isFadingOut = false ∧
      (stop fadingState 500).mode = Mode.idle ∧
      (stop fadingState 500).rafActive = false) :=
  ⟨rfl, stop_during_fade_amended fadingState 500 rfl⟩

/-- C7 counterexample: gainBoost is not clamped into [0.5, 3] by the
per-frame computation.  On a constant frequency input of value 51
(normalized 1/5), bar 0 with gainBoost 10 has level 1, while with
gainBoost clamped to 3 it has level 3/5 — so the pipeline's output
with the out-of-range value differs from every computation using only
in-range values (any in-range gain yields a level of at most 3/5
here). -/
theorem gain_not_clamped_counterexample :
    barLevel (fun _ => 51) 1024 8 10 1 0 = 1 ∧
    barLevel (fun _ => 51) 1024 8 (clamp (10 : ℚ) (1 / 2) 3) 1 0 = 3 / 5 ∧
    (1 : ℚ) ≠ 3 / 5 ∧
    ∀ g : ℚ, 1 / 2 ≤ g → g ≤ 3 →
      barLevel (fun _ => 51) 1024 8 g 1 0 ≤ 3 / 5 := by
  refine ⟨?_, ?_, by norm_num, ?_⟩
  · rw [barLevel_const]
    norm_num [clamp, min_def, max_def]
  · rw [barLevel_const]
    norm_num [clamp, min_def, max_def]
  · intro g hg1 hg2
    rw [barLevel_const]
    have harg : (51 : ℚ) / 255 * g * 1 ≤ 3 / 5 := by
      rw [mul_one]
      nlinarith
    unfold clamp
    exact max_le (by norm_num) (le_trans (min_le_right _ _) harg)

/-- C7 amended: of the caller-supplied settings, the per-frame
computation clamps only barCount (into [8,256]); gainBoost reaches the
per-bar and VU computations unclamped (out-of-range values change the
output, bounded only by the final clamp of each level into [0,1]), and
fftSize and smoothing are handed to the analysis node without
clamping.  The positive part: bar output for any caller barCount
equals the output for the clamped barCount, and every produced level
is nevertheless in [0,1] for arbitrary gainBoost. -/
theorem config_clamp_amended (F : ℕ → ℕ) (B K : ℕ) (g m : ℚ) :
    spectrumLevels F B K g m = spectrumLevels F B (clamp K 8 256) g m ∧
    ∀ L ∈ spectrumLevels F B K g m, 0 ≤ L ∧ L ≤ 1 := by
  constructor
  · simp only [spectrumLevels]
    rw [clamp_idem K (by norm_num)]
  · intro L hL
    simp only [spectrumLevels, List.mem_map, List.mem_range] at hL
    obtain ⟨i, _, rfl⟩ := hL
    exact barLevel_bounds F B (clamp K 8 256) g m i

/-- C1: for every frequency-magnitude sequence with values in [0,255],
bar count, gain boost and fade multiplier, each bar's level computed by
the draw loop equals the spec's reference computation (quadratic index
curve, floored center bin, clamped neighborhood average, normalization
by 255, gain and fade scaling, final clamp to [0,1]). -/
theorem barLevel_matches_spec (F : ℕ → ℕ) (B K : ℕ) (g m : ℚ) (i : ℕ)
    (hi : i < K) (hF : ∀ k, F k ≤ 255) :
    barLevel F B K g m i = specBarLevel F B K g m i := by
  have ht : (if K = 1 then (0 : ℚ) else (i : ℚ) / ((K : ℚ) - 1)) =
      (i : ℚ) / ((K : ℚ) - 1) := by
    split
    · rename_i hone
      rw [hone]
      norm_num
    · rfl
  have hw : max 1 ⌊(B : ℚ) / ((K : ℚ) * 3)⌋₊ = max 1 (B / (K * 3)) := by
    rw [show ((K : ℚ) * 3) = (((K * 3 : ℕ)) : ℚ) by push_cast; ring,
      Nat.floor_div_nat, Nat.floor_natCast]
  simp only [barLevel, specBarLevel, ht, hw, pow_two, Nat.cast_sum]

theorem barLevel_matches_spec_witness :
    (0 < 8 ∧ ∀ k : ℕ, (fun _ => 0 : ℕ → ℕ) k ≤ 255) ∧
    barLevel (fun _ => 0) 1024 8 1 1 0 = specBarLevel (fun _ => 0) 1024 8 1 1 0 :=
  ⟨⟨by decide, fun k => Nat.zero_le 255⟩,
    barLevel_matches_spec (fun _ => 0) 1024 8 1 1 0 (by decide)
      (fun k => Nat.zero_le 255)⟩
